import Mathlib

/-!
Shallow embedding of the Gemini protocol engine (melon095/Gemini):
the response parser (crates/protocol/src/gemini_protocol/parser.rs, mod.rs),
the gemtext parser (crates/protocol/src/gemtext/gemtext_parser.rs, mod.rs,
gemtext_body.rs), the shared error types (crates/protocol/src/error.rs) and
the TLS transport pumping loops (crates/client-bin/src/network/tls_client.rs).

Strings are modelled as `List Char` (Rust `char` and Lean `Char` are both
Unicode scalar values).  Machine integers that matter are modelled as `Nat`
with explicit `% 2^w` where the code truncates (the `depth as u8` cast).
-/

namespace Gemini

abbrev Str := List Char

/-- Model of Rust `char::is_whitespace` (the Unicode `White_Space` property),
restricted to the code points it actually contains. -/
def isRustWhitespace (c : Char) : Bool :=
  c.toNat = 0x09 || c.toNat = 0x0A || c.toNat = 0x0B || c.toNat = 0x0C ||
  c.toNat = 0x0D || c.toNat = 0x20 || c.toNat = 0x85 || c.toNat = 0xA0 ||
  c.toNat = 0x1680 || (0x2000 ≤ c.toNat && c.toNat ≤ 0x200A) ||
  c.toNat = 0x2028 || c.toNat = 0x2029 || c.toNat = 0x202F ||
  c.toNat = 0x205F || c.toNat = 0x3000

/-- The gemtext parser's `WSP` constant: `&[' ', '\t']`. -/
def isWsp (c : Char) : Bool := c = ' ' || c = '\t'

/-- Model of Rust `str::trim` (drop leading and trailing whitespace). -/
def trim (s : Str) : Str :=
  ((s.dropWhile isRustWhitespace).reverse.dropWhile isRustWhitespace).reverse

/-- Model of Rust `str::split(sep)` for a single-char separator: always yields
at least one piece; `""` yields `[""]`. -/
def splitOnChar (sep : Char) : Str → List Str
  | [] => [[]]
  | c :: rest =>
    let r := splitOnChar sep rest
    if c = sep then [] :: r
    else
      match r with
      | [] => [[c]]
      | h :: t => (c :: h) :: t

/-- Model of Rust `str::splitn(2, WSP)`: split at the first space-or-tab
only; the separator character is dropped, the rest is kept verbatim. -/
def splitnWsp2 (s : Str) : List Str :=
  let tok := s.takeWhile (fun c => !(isWsp c))
  match s.drop tok.length with
  | [] => [tok]
  | _ :: rest => [tok, rest]

/-- Model of Rust `[&str]::join(" ")`. -/
def joinSpace : List Str → Str
  | [] => []
  | [x] => x
  | x :: xs => x ++ ' ' :: joinSpace xs

/-- Number of `'\n'` characters in a string. -/
def countNl (s : Str) : Nat := (s.filter (· = '\n')).length

/-- `true` iff `p` is a leading run of `s` (Rust `str::starts_with`). -/
def hasPrefixChars : Str → Str → Bool
  | [], _ => true
  | _ :: _, [] => false
  | p :: ps, c :: cs => p = c && hasPrefixChars ps cs

/-- Model of Rust `char::to_digit(10)`. -/
def charToDigit10 (c : Char) : Option Nat :=
  if '0' ≤ c && c ≤ '9' then some (c.toNat - 48) else none

/-- Drop a single trailing `'\r'` if present (the carriage-return folding
`str::lines` performs on every `'\n'`-terminated line). -/
def stripTrailingCR (s : Str) : Str :=
  match s.getLast? with
  | some '\r' => s.dropLast
  | _ => s

/-- Model of Rust `str::lines`: split on `'\n'`, strip one trailing `'\r'`
from every line that was terminated by a `'\n'`, and do not yield a final
empty line for a trailing `'\n'`. -/
def rustLines (s : Str) : List Str :=
  if s.isEmpty then []
  else
    let pieces := splitOnChar '\n' s
    let init := (pieces.dropLast).map stripTrailingCR
    match pieces.getLast? with
    | some [] => init
    | some l => init ++ [l]
    | none => init

/-! ## URL model

The repository uses the external `url` crate (WHATWG).  Like the rest of the
Rust standard-library surface, it is modelled here: a `Url` value is always
absolute (it always carries a scheme — the crate has no representation for a
relative reference, `Url::parse` on one fails), `Url.parse` requires a
`scheme "://"` shape, and `Url.join` resolves a relative reference against a
base the way the crate does for the path shapes the repository exercises. -/

structure Url where
  scheme : Str
  host : Str
  path : List Str
  deriving DecidableEq, Repr

def isSchemeChar (c : Char) : Bool := c.isAlpha

/-- Model of `Url::parse`: succeeds only on an absolute `scheme://…` URL. -/
def Url.parse (s : Str) : Option Url :=
  let scheme := s.takeWhile isSchemeChar
  let rest := s.drop scheme.length
  if !scheme.isEmpty && hasPrefixChars "://".data rest then
    let after := rest.drop 3
    let host := after.takeWhile (· ≠ '/')
    let pathPart := after.drop host.length
    some ⟨scheme, host, if pathPart.isEmpty then [] else splitOnChar '/' (pathPart.drop 1)⟩
  else none

/-- `true` iff the first path-less segment contains a `':'`, i.e. the input
carries (or tries to carry) its own scheme. -/
def looksAbsolute (s : Str) : Bool :=
  (s.takeWhile (· ≠ '/')).contains ':'

/-- Model of `Url::join`: an input with its own scheme must parse absolutely,
a rooted path replaces the base path, otherwise the last base segment is
dropped and the relative segments appended. -/
def Url.join (base : Url) (input : Str) : Option Url :=
  if looksAbsolute input then Url.parse input
  else if hasPrefixChars "/".data input then
    some { base with path := splitOnChar '/' (input.drop 1) }
  else if input.isEmpty then some base
  else some { base with path := base.path.dropLast ++ splitOnChar '/' input }

/-! ## Gemtext data model and errors
(crates/protocol/src/gemtext/mod.rs, gemtext_body.rs) -/

/-- `GemTextErrorKind`; `InvalidUrl` carries a `url::ParseError` in the
source, elided here since nothing in the repository inspects it. -/
inductive GemTextErrorKind where
  | linkLineMissingUrl
  | invalidUrl
  deriving DecidableEq, Repr

structure GemTextError where
  line : Nat
  kind : GemTextErrorKind
  deriving DecidableEq, Repr

/-- `Line` from gemtext_body.rs.  `depth` is a `u8` in the source; the value
stored is the leading-`'#'` count truncated by the `as u8` cast. -/
inductive Line where
  | text (s : Str)
  | link (url : Url) (description : Option Str)
  | heading (text : Str) (depth : Nat)
  | listItem (s : Str)
  | quote (s : Str)
  | preformatToggleOn
  | preformatToggleOff
  deriving DecidableEq, Repr

structure GemTextBody where
  lines : List Line
  deriving DecidableEq, Repr

inductive ParserMode where
  | normal
  | preformat
  deriving DecidableEq, Repr

/-! ## Gemtext parser (crates/protocol/src/gemtext/gemtext_parser.rs)

The Rust `GemTextParser` is a struct with mutable `line_num`, `mode` and
`cursor` fields; they are passed explicitly here.  Each `…_line` helper takes
the current line number (for errors), the base URL and the cursor. -/

/-- `GemTextParser::make_url`: try an absolute parse, then a join against the
base document URL, then fail with `InvalidUrl`. -/
def make_url (base : Url) (lineNum : Nat) (input : Str) : Except GemTextError Url :=
  match Url.parse input with
  | some u => .ok u
  | none =>
    match Url.join base input with
    | some u => .ok u
    | none => .error ⟨lineNum, .invalidUrl⟩

/-- `GemTextParser::link_line`: skip the 2-char marker and leading
whitespace, `splitn(2, WSP)`, drop empty pieces, first piece is the URL text,
`split[1..].join(" ")` the description. -/
def link_line (base : Url) (lineNum : Nat) (cursor : Str) : Except GemTextError Line :=
  let line := (cursor.drop 2).dropWhile isRustWhitespace
  let split := (splitnWsp2 line).filter (fun s => !s.isEmpty)
  match split with
  | [] => .error ⟨lineNum, .linkLineMissingUrl⟩
  | [url] => (make_url base lineNum url).map (fun u => .link u none)
  | url :: rest => (make_url base lineNum url).map (fun u => .link u (some (joinSpace rest)))

/-- `GemTextParser::heading`: count leading `'#'`, store the count as `u8`
(truncating cast), text is the remainder trimmed. -/
def heading (cursor : Str) : Line :=
  let depth := (cursor.takeWhile (· = '#')).length
  .heading (trim (cursor.drop depth)) (depth % 256)

/-- `GemTextParser::list_item`: unconditionally skip `"* ".len() = 2`
characters and return the rest. -/
def list_item (cursor : Str) : Line :=
  .listItem (cursor.drop 2)

/-- `GemTextParser::take_cursor_whitespace`: skip `start` characters, then
`take_while(is_whitespace)` — it keeps only the leading whitespace run. -/
def take_cursor_whitespace (cursor : Str) (start : Nat) : Str :=
  (cursor.drop start).takeWhile isRustWhitespace

/-- `GemTextParser::quote_line`: the content kept is
`take_cursor_whitespace(1)`. -/
def quote_line (cursor : Str) : Line :=
  .quote (take_cursor_whitespace cursor 1)

/-- `GemTextParser::preformat_toggle`: flip the mode, emit the toggle that
reflects the state entered. -/
def preformat_toggle : ParserMode → Line × ParserMode
  | .normal => (.preformatToggleOn, .preformat)
  | .preformat => (.preformatToggleOff, .normal)

/-- `GemTextParser::gemtext_line`: prefix dispatch in source order. -/
def gemtext_line (base : Url) (lineNum : Nat) (mode : ParserMode) (cursor : Str) :
    Except GemTextError (Line × ParserMode) :=
  if hasPrefixChars "=>".data cursor then
    (link_line base lineNum cursor).map (fun l => (l, mode))
  else if hasPrefixChars "```".data cursor then
    .ok (preformat_toggle mode)
  else if hasPrefixChars "#".data cursor then
    .ok (heading cursor, mode)
  else if hasPrefixChars "*".data cursor then
    .ok (list_item cursor, mode)
  else if hasPrefixChars ">".data cursor then
    .ok (quote_line cursor, mode)
  else
    .ok (.text cursor, mode)

/-- `GemTextParser::gemtext_document`: fold over the lines, incrementing
`line_num` before each line, aborting on the first error. -/
def gemtext_lines (base : Url) : List Str → Nat → ParserMode → Except GemTextError (List Line)
  | [], _, _ => .ok []
  | l :: rest, n, mode =>
    match gemtext_line base (n + 1) mode l with
    | .error e => .error e
    | .ok (ln, mode') => (gemtext_lines base rest (n + 1) mode').map (ln :: ·)

/-- `parse_gemtext` from gemtext/mod.rs. -/
def parse_gemtext (base : Url) (s : Str) : Except GemTextError GemTextBody :=
  (gemtext_lines base (rustLines s) 0 .normal).map GemTextBody.mk

/-! ## Response data model (gemini_protocol/response.rs, gemtext_body.rs, error.rs) -/

/-- `MimeType`; `parameters` is a `HashMap<String,String>` in the source,
modelled as an association list built with replace-on-duplicate insertion
(`HashMap` iteration order is unspecified, so facts are stated through
`hmGet`/`List.length`, the model's `get`/`len`). -/
structure MimeType where
  typ : Str
  sub : Str
  parameters : Option (List (Str × Str))
  deriving DecidableEq, Repr

/-- `HashMap::insert` on the association-list model. -/
def hmInsert (m : List (Str × Str)) (kv : Str × Str) : List (Str × Str) :=
  if m.any (fun p => p.1 = kv.1) then
    m.map (fun p => if p.1 = kv.1 then (p.1, kv.2) else p)
  else m ++ [kv]

/-- `collect::<HashMap<_,_>>()` on the model. -/
def hmOfList (l : List (Str × Str)) : List (Str × Str) := l.foldl hmInsert []

/-- `HashMap::get` on the model. -/
def hmGet (m : List (Str × Str)) (k : Str) : Option Str :=
  (m.find? (fun p => p.1 = k)).map (·.2)

structure OkResponse where
  mime : MimeType
  body : GemTextBody
  deriving DecidableEq, Repr

/-- `Response` from gemini_protocol/response.rs. -/
inductive Response where
  | mustPromptForInput (prompt : Str)
  | mustPromptSensitiveInput (prompt : Str)
  | success (r : OkResponse)
  | temporaryRedirect (url : Str)
  | permanentRedirect (url : Str)
  | unexpectedErrorTryAgain (msg : Option Str)
  | serverUnavailable (msg : Option Str)
  | cgiError (msg : Option Str)
  | proxyError (msg : Option Str)
  | slowDown (msg : Option Str)
  | permanentFailure (msg : Option Str)
  | resourceNotFound (msg : Option Str)
  | resourceGone (msg : Option Str)
  | proxyRequestRefused (msg : Option Str)
  | badRequest (msg : Option Str)
  | certificateRequired (msg : Option Str)
  | certificateNotAuthorized (msg : Option Str)
  | certificateNotValid (msg : Option Str)
  deriving DecidableEq, Repr

/-- `ErrorKind` from error.rs. -/
inductive ErrorKind where
  | missingStatus
  | invalidStatus (code : Nat)
  | invalidBody (e : GemTextError)
  | syntaxExpectedData
  | syntaxMissingNewline
  | syntaxMissingSpace
  | invalidDigit
  deriving DecidableEq, Repr

structure ParserError where
  line : Nat
  kind : ErrorKind
  deriving DecidableEq, Repr

/-! ## Response parser (gemini_protocol/parser.rs, mod.rs)

The Rust `Parser` holds a `Chars` iterator and a 1-based `line` counter,
modelled as an explicit state. -/

structure PState where
  input : Str
  line : Nat
  deriving DecidableEq, Repr

namespace Parser

def make_err (st : PState) (kind : ErrorKind) : ParserError := ⟨st.line, kind⟩

/-- `Parser::eat_char`: next char or `SyntaxExpectedData`; a consumed `'\n'`
increments `line`. -/
def eat_char : PState → Except ParserError (Char × PState)
  | ⟨[], line⟩ => .error ⟨line, .syntaxExpectedData⟩
  | ⟨c :: rest, line⟩ => .ok (c, ⟨rest, if c = '\n' then line + 1 else line⟩)

/-- `Parser::eat_digit`. -/
def eat_digit (st : PState) : Except ParserError (Nat × PState) := do
  let (c, st') ← eat_char st
  match charToDigit10 c with
  | some d => .ok (d, st')
  | none => .error (make_err st' .invalidDigit)

/-- `Parser::eat_until_crlf`'s loop body on the raw iterator: returns the
collected characters, the remaining input and the updated line counter.
A `'\r'` immediately followed by `'\n'` terminates the field; the
terminating `'\n'` is taken with a raw `iter.next()` and therefore does
NOT bump the line counter.  A `'\r'` followed by anything else is kept,
and the following character is consumed and dropped. -/
def eat_until_crlf_aux : Str → Nat → Str × Str × Nat
  | [], line => ([], [], line)
  | '\r' :: '\n' :: rest, line => ([], rest, line)
  | ['\r'], line => (['\r'], [], line)
  | '\r' :: _ :: rest, line =>
    let r := eat_until_crlf_aux rest line
    ('\r' :: r.1, r.2.1, r.2.2)
  | c :: rest, line =>
    let r := eat_until_crlf_aux rest (if c = '\n' then line + 1 else line)
    (c :: r.1, r.2.1, r.2.2)

def eat_until_crlf (st : PState) : Str × PState :=
  let r := eat_until_crlf_aux st.input st.line
  (r.1, ⟨r.2.1, r.2.2⟩)

/-- `Parser::eat_until`'s loop: collect until `f` fires (the firing char is
consumed and dropped); every consumed `'\n'` — firing or not — bumps the
line counter. -/
def eat_until_aux (f : Char → Bool) : Str → Nat → Str × Str × Nat
  | [], line => ([], [], line)
  | c :: rest, line =>
    let line1 := if c = '\n' then line + 1 else line
    if f c then ([], rest, line1)
    else
      let r := eat_until_aux f rest line1
      (c :: r.1, r.2.1, r.2.2)

def eat_until (f : Char → Bool) (st : PState) : Str × PState :=
  let r := eat_until_aux f st.input st.line
  (r.1, ⟨r.2.1, r.2.2⟩)

/-- `Parser::eat_sp`. -/
def eat_sp (st : PState) : Except ParserError PState := do
  let (c, st') ← eat_char st
  if c = ' ' then .ok st' else .error (make_err st' .syntaxMissingSpace)

/-- `Parser::peek`: clone the iterator, `unwrap_or('\0')`. -/
def peek (st : PState) : Char := st.input.headD '\x00'

/-- `Parser::read_error_msg`: a message is present only when the next char
is a space. -/
def read_error_msg (st : PState) : Except ParserError (Option Str × PState) :=
  if peek st = ' ' then do
    let st' ← eat_sp st
    let (msg, st'') := eat_until_crlf st'
    .ok (some msg, st'')
  else .ok (none, st)

/-- One `filter_map` step of `Parser::mimetype`: `split('=')`, first piece is
the key, second the value (absent ⇒ skipped), both trimmed, kept only for
keys `charset` and `lang`. -/
def mimeParamPiece (piece : Str) : Option (Str × Str) :=
  let parts := splitOnChar '=' piece
  match parts with
  | [] => none
  | [_] => none
  | k :: v :: _ =>
    let key := trim k
    let value := trim v
    if key = "charset".data || key = "lang".data then some (key, value) else none

/-- `Parser::mimetype`: type up to `'/'`, subtype-and-params up to `'\r'`;
no `';'` ⇒ no parameters; otherwise split the WHOLE subtype text on `';'`,
filter-map each piece, collect into a `HashMap`, and truncate the subtype at
the first `';'`. -/
def mimetype (st : PState) : Except ParserError (MimeType × PState) :=
  let (t, st1) := eat_until (· = '/') st
  let (s, st2) := eat_until (· = '\r') st1
  match s.findIdx? (· = ';') with
  | none => .ok (⟨t, s, none⟩, st2)
  | some idx =>
    let params := hmOfList ((splitOnChar ';' s).filterMap mimeParamPiece)
    .ok (⟨t, s.take idx, some params⟩, st2)

/-- `Parser::input` (family 1). -/
def input (st : PState) : Except ParserError (Response × PState) := do
  let (d, st1) ← eat_digit st
  let st2 ← eat_sp st1
  let (prompt, st3) := eat_until_crlf st2
  match d with
  | 0 => .ok (.mustPromptForInput prompt, st3)
  | 1 => .ok (.mustPromptSensitiveInput prompt, st3)
  | d => .error (make_err st3 (.invalidStatus (10 + d)))

/-- `Parser::success` (family 2).  The source calls `parse_gemtext(body)`
without the base URL its two-argument signature requires (the snapshot does
not type-check); the caller in client-bin/src/document.rs passes the request
URL, which is threaded through here as the spec describes. -/
def success (base : Url) (st : PState) : Except ParserError (Response × PState) := do
  let (_, st1) ← eat_digit st
  let st2 ← eat_sp st1
  let (mt, st3) ← mimetype st2
  if peek st3 = '\n' then
    let (_, st4) ← eat_char st3
    let (body, st5) := eat_until (fun _ => false) st4
    match parse_gemtext base body with
    | .ok b => .ok (.success ⟨mt, b⟩, st5)
    | .error e => .error ⟨e.line, .invalidBody e⟩
  else
    .error (make_err st3 .syntaxMissingNewline)

/-- `Parser::redirect` (family 3). -/
def redirect (st : PState) : Except ParserError (Response × PState) := do
  let (d, st1) ← eat_digit st
  let st2 ← eat_sp st1
  let (url, st3) := eat_until_crlf st2
  match d with
  | 0 => .ok (.temporaryRedirect url, st3)
  | 1 => .ok (.permanentRedirect url, st3)
  | d => .error (make_err st3 (.invalidStatus (30 + d)))

/-- `Parser::tempfail` (family 4). -/
def tempfail (st : PState) : Except ParserError (Response × PState) := do
  let (d, st1) ← eat_digit st
  let (msg, st2) ← read_error_msg st1
  match d with
  | 0 => .ok (.unexpectedErrorTryAgain msg, st2)
  | 1 => .ok (.serverUnavailable msg, st2)
  | 2 => .ok (.cgiError msg, st2)
  | 3 => .ok (.proxyError msg, st2)
  | 4 => .ok (.slowDown msg, st2)
  | d => .error (make_err st2 (.invalidStatus (40 + d)))

/-- `Parser::permfail` (family 5). -/
def permfail (st : PState) : Except ParserError (Response × PState) := do
  let (d, st1) ← eat_digit st
  let (msg, st2) ← read_error_msg st1
  match d with
  | 0 => .ok (.permanentFailure msg, st2)
  | 1 => .ok (.resourceNotFound msg, st2)
  | 2 => .ok (.resourceGone msg, st2)
  | 3 => .ok (.proxyRequestRefused msg, st2)
  | 9 => .ok (.badRequest msg, st2)
  | d => .error (make_err st2 (.invalidStatus (50 + d)))

/-- `Parser::auth` (family 6). -/
def auth (st : PState) : Except ParserError (Response × PState) := do
  let (d, st1) ← eat_digit st
  let (msg, st2) ← read_error_msg st1
  match d with
  | 0 => .ok (.certificateRequired msg, st2)
  | 1 => .ok (.certificateNotAuthorized msg, st2)
  | 2 => .ok (.certificateNotValid msg, st2)
  | d => .error (make_err st2 (.invalidStatus (60 + d)))

/-- `Parser::reply`: dispatch on the first status character; anything outside
`'1'..'6'` is `InvalidStatus(c.to_digit(10).unwrap_or(0))`. -/
def reply (base : Url) (st : PState) : Except ParserError (Response × PState) := do
  let (c, st1) ← eat_char st
  if c = '1' then input st1
  else if c = '2' then success base st1
  else if c = '3' then redirect st1
  else if c = '4' then tempfail st1
  else if c = '5' then permfail st1
  else if c = '6' then auth st1
  else .error (make_err st1 (.invalidStatus ((charToDigit10 c).getD 0)))

end Parser

/-- `parse_response` from gemini_protocol/mod.rs: run `reply` on the raw
text with `line = 1`.  (On the base-URL argument see `Parser.success`.) -/
def parse_response (base : Url) (response : Str) : Except ParserError Response :=
  (Parser.reply base ⟨response, 1⟩).map (·.1)

/-! ## TLS transport pumping (client-bin/src/network/tls_client.rs)

The rustls `ClientConnection` together with the owned `TcpStream` is external
state; it is modelled as an abstract state type `σ` with the interface the
code uses: `is_handshaking`, `wants_write`, `wants_read` and `complete_io`
(which performs one round of ciphertext I/O and reports
`(bytes_read, bytes_written)` or an I/O error `ε`).  Each embedded operation
additionally returns the list of `complete_io` rounds it performed, so that
the call sequencing is observable. -/

structure SessionIface (σ ε : Type) where
  is_handshaking : σ → Bool
  wants_write : σ → Bool
  wants_read : σ → Bool
  complete_io : σ → Except ε (Nat × Nat × σ)

/-- One recorded round of ciphertext I/O: the `(rd, wr)` byte counts
returned by `complete_io`. -/
structure TlsRound where
  rd : Nat
  wr : Nat
  deriving DecidableEq, Repr

/-- `TlsClient::complete_prior_io`: one round if handshaking, then one round
if (still) wanting to write. -/
def complete_prior_io (I : SessionIface σ ε) (s : σ) : Except ε (σ × List TlsRound) := do
  let (s1, t1) ←
    if I.is_handshaking s then
      match I.complete_io s with
      | .error e => .error e
      | .ok (rd, wr, s') => .ok (s', [TlsRound.mk rd wr])
    else .ok (s, ([] : List TlsRound))
  if I.wants_write s1 then
    match I.complete_io s1 with
    | .error e => .error e
    | .ok (rd, wr, s2) => .ok (s2, t1 ++ [TlsRound.mk rd wr])
  else .ok (s1, t1)

/-- The `while wants_read` loop of `TlsClient::prepare_read`, with explicit
fuel (`none` = the loop has not terminated within `fuel` rounds): perform a
round while the session wants to read, and break as soon as a round's
byte-read count (`complete_io(..)?.0`) is zero. -/
def read_pump (I : SessionIface σ ε) : Nat → σ → Option (Except ε (σ × List TlsRound))
  | 0, _ => none
  | fuel + 1, s =>
    if I.wants_read s then
      match I.complete_io s with
      | .error e => some (.error e)
      | .ok (rd, wr, s') =>
        if rd = 0 then some (.ok (s', [TlsRound.mk rd wr]))
        else (read_pump I fuel s').map (·.map (fun r => (r.1, TlsRound.mk rd wr :: r.2)))
    else some (.ok (s, []))

/-- `TlsClient::prepare_read`: `complete_prior_io` first, then the
`while wants_read` pump. -/
def prepare_read (I : SessionIface σ ε) (fuel : Nat) (s : σ) :
    Option (Except ε (σ × List TlsRound)) :=
  match complete_prior_io I s with
  | .error e => some (.error e)
  | .ok (s1, t1) => (read_pump I fuel s1).map (·.map (fun r => (r.1, t1 ++ r.2)))

/-! ## Concrete objects shared by the claim instances -/

deriving instance DecidableEq for Except

/-- The base URL `gemini://example.org/docs/` used by concrete instances. -/
def exampleBase : Url := ⟨"gemini".data, "example.org".data, ["docs".data, []]⟩

/-- `text/gemini` with no parameters. -/
def textGeminiMime : MimeType := ⟨"text".data, "gemini".data, none⟩

/-- The digit character for `d < 10`. -/
def digitChar (d : Nat) : Char := Char.ofNat (48 + d)

/-- A minimal well-formed reply whose status line carries the two-digit code
`d1 d2`: families 1 and 3 need the mandatory space and a CRLF, family 2
needs a MIME type and its terminator, families 4–6 need nothing after the
digits (the optional message is simply absent). -/
def minimalReply (d1 d2 : Nat) : Str :=
  digitChar d1 :: digitChar d2 ::
    (if d1 = 2 then " text/gemini\r\n".data
     else if d1 = 1 || d1 = 3 then " \r\n".data
     else "\r\n".data)

/-- What the code actually produces on `minimalReply d1 d2`: the claimed
variants on the claimed codes, but the whole family `2x` succeeds for every
units digit, and a tens digit outside `1..6` reports only that single
digit. -/
def minimalReplyExpected (d1 d2 : Nat) : Except ParserError Response :=
  if d1 = 1 then
    if d2 = 0 then .ok (.mustPromptForInput [])
    else if d2 = 1 then .ok (.mustPromptSensitiveInput [])
    else .error ⟨1, .invalidStatus (10 + d2)⟩
  else if d1 = 2 then .ok (.success ⟨textGeminiMime, ⟨[]⟩⟩)
  else if d1 = 3 then
    if d2 = 0 then .ok (.temporaryRedirect [])
    else if d2 = 1 then .ok (.permanentRedirect [])
    else .error ⟨1, .invalidStatus (30 + d2)⟩
  else if d1 = 4 then
    if d2 = 0 then .ok (.unexpectedErrorTryAgain none)
    else if d2 = 1 then .ok (.serverUnavailable none)
    else if d2 = 2 then .ok (.cgiError none)
    else if d2 = 3 then .ok (.proxyError none)
    else if d2 = 4 then .ok (.slowDown none)
    else .error ⟨1, .invalidStatus (40 + d2)⟩
  else if d1 = 5 then
    if d2 = 0 then .ok (.permanentFailure none)
    else if d2 = 1 then .ok (.resourceNotFound none)
    else if d2 = 2 then .ok (.resourceGone none)
    else if d2 = 3 then .ok (.proxyRequestRefused none)
    else if d2 = 9 then .ok (.badRequest none)
    else .error ⟨1, .invalidStatus (50 + d2)⟩
  else if d1 = 6 then
    if d2 = 0 then .ok (.certificateRequired none)
    else if d2 = 1 then .ok (.certificateNotAuthorized none)
    else if d2 = 2 then .ok (.certificateNotValid none)
    else .error ⟨1, .invalidStatus (60 + d2)⟩
  else .error ⟨1, .invalidStatus d1⟩

/-- C1: status dispatch over every two-digit combination, as the code has
it. -/
theorem claim_C1_theorem :
    ∀ (d1 d2 : Fin 10), parse_response exampleBase (minimalReply d1 d2)
      = minimalReplyExpected d1 d2 := by decide

/-- C1 counterexample: 25 is not a valid Gemini status code, yet the parser
accepts `"25 text/gemini\r\n"` as a Success instead of failing with
`InvalidStatus 25` — `Parser::success` reads and discards the units digit. -/
theorem claim_C1_counterexample :
    parse_response exampleBase "25 text/gemini\r\n".data
        = .ok (.success ⟨textGeminiMime, ⟨[]⟩⟩) ∧
    (Except.ok (Response.success ⟨textGeminiMime, ⟨[]⟩⟩) : Except ParserError Response)
        ≠ .error ⟨1, .invalidStatus 25⟩ := by decide

/-! ## C4: MIME parameter handling -/

/-- The parameter extraction exactly as claim C4 words it (a refinement
comparison definition written from the claim, NOT from the source): only the
text after the FIRST `';'` is split on `';'`, and each piece is split ONCE
on `'='` (so a second `'='` stays inside the value), both sides trimmed,
kept only for the keys `charset` and `lang`. -/
def mimeParamsClaimed (s : Str) : List (Str × Str) :=
  match s.findIdx? (· = ';') with
  | none => []
  | some idx =>
    (splitOnChar ';' (s.drop (idx + 1))).filterMap fun piece =>
      let tok := piece.takeWhile (· ≠ '=')
      match piece.drop tok.length with
      | [] => none
      | _ :: v =>
        let key := trim tok
        let value := trim v
        if key = "charset".data || key = "lang".data then some (key, value) else none

/-- C4 amended: the WHOLE subtype-and-parameter text (the subtype piece
included) is split on `';'`, and only the first two `'='`-separated fields
of a piece are used; the claim's two concrete consequences do hold. -/
theorem claim_C4_theorem :
    (parse_response exampleBase "20 text/gemini; lang=zh-CN; charset=utf-8\r\n".data
        = .ok (.success ⟨⟨"text".data, "gemini".data,
            some [("lang".data, "zh-CN".data), ("charset".data, "utf-8".data)]⟩, ⟨[]⟩⟩) ∧
      hmGet [("lang".data, "zh-CN".data), ("charset".data, "utf-8".data)] "lang".data
        = some "zh-CN".data ∧
      hmGet [("lang".data, "zh-CN".data), ("charset".data, "utf-8".data)] "charset".data
        = some "utf-8".data) ∧
    parse_response exampleBase "20 text/gemini; foo=bar\r\n".data
        = .ok (.success ⟨⟨"text".data, "gemini".data, some []⟩, ⟨[]⟩⟩) ∧
    parse_response exampleBase "20 text/charset=utf-8;x\r\n".data
        = .ok (.success ⟨⟨"text".data, "charset=utf-8".data,
            some [("charset".data, "utf-8".data)]⟩, ⟨[]⟩⟩) ∧
    parse_response exampleBase "20 text/gemini; charset=a=b\r\n".data
        = .ok (.success ⟨⟨"text".data, "gemini".data,
            some [("charset".data, "a".data)]⟩, ⟨[]⟩⟩) := by decide

/-- C4 counterexample: on `"20 text/gemini; charset=a=b\r\n"` the code keeps
only the field between the first and second `'='` (value `"a"`), while the
claim's split-once rule would keep `"a=b"`. -/
theorem claim_C4_counterexample :
    parse_response exampleBase "20 text/gemini; charset=a=b\r\n".data
        = .ok (.success ⟨⟨"text".data, "gemini".data,
            some [("charset".data, "a".data)]⟩, ⟨[]⟩⟩) ∧
    mimeParamsClaimed "gemini; charset=a=b".data = [("charset".data, "a=b".data)] ∧
    ("a".data : Str) ≠ "a=b".data := by decide

/-! ## C5: link-line description extraction -/

/-- Full whitespace tokenization as claim C5 words it (a refinement
comparison definition written from the claim, NOT from the source):
`acc` accumulates the current token in reverse. -/
def wspTokensGo : Str → Str → List Str
  | acc, [] => if acc.isEmpty then [] else [acc.reverse]
  | acc, c :: rest =>
    if isWsp c then
      if acc.isEmpty then wspTokensGo [] rest
      else acc.reverse :: wspTokensGo [] rest
    else wspTokensGo (c :: acc) rest

/-- The whitespace-delimited tokens of a string (claim C5's reading). -/
def wspTokens (s : Str) : List Str := wspTokensGo [] s

/-- C5 counterexample: on the link line `"=> url  desc"` (two spaces) the
code's description is `" desc"` — the text after the FIRST space kept
verbatim — while the claim's tokenize-and-rejoin rule yields `"desc"`. -/
theorem claim_C5_counterexample :
    parse_gemtext exampleBase "=> url  desc".data
        = .ok ⟨[.link ⟨"gemini".data, "example.org".data, ["docs".data, "url".data]⟩
            (some " desc".data)]⟩ ∧
    joinSpace (wspTokens "url  desc".data).tail = "desc".data ∧
    (" desc".data : Str) ≠ "desc".data := by decide

/-! ## C7: list-item and quote content extraction -/

/-- C7: what the code actually does on list and quote lines.
`quote_line` keeps only the run of leading whitespace after the `'>'`
marker (`take_while(is_whitespace)`), discarding the real content, and
`list_item` skips two characters even when the line is `"*foo"`. -/
theorem claim_C7_theorem :
    parse_gemtext exampleBase "> hello".data = .ok ⟨[.quote " ".data]⟩ ∧
    parse_gemtext exampleBase ">hello".data = .ok ⟨[.quote []]⟩ ∧
    parse_gemtext exampleBase "* keep".data = .ok ⟨[.listItem "keep".data]⟩ ∧
    parse_gemtext exampleBase "*foo".data = .ok ⟨[.listItem "oo".data]⟩ ∧
    (" ".data : Str) ≠ " hello".data := by decide

/-! ## C3: line counting -/

theorem countNl_cons (c : Char) (s : Str) :
    countNl (c :: s) = (if c = '\n' then 1 else 0) + countNl s := by
  simp only [countNl, List.filter]
  by_cases h : c = '\n' <;> simp [h] <;> omega

/-- `eat_until_crlf` bumps the line counter exactly for the newlines that end
up in the returned field — the `'\n'` of a terminating CRLF is consumed with
a raw `iter.next()` and never counted. -/
theorem crlf_line_count : ∀ (input : Str) (line : Nat),
    (Parser.eat_until_crlf_aux input line).2.2
      = line + countNl (Parser.eat_until_crlf_aux input line).1 := by
  intro input line
  induction input, line using Parser.eat_until_crlf_aux.induct with
  | case1 line => simp [Parser.eat_until_crlf_aux, countNl]
  | case2 rest line => simp [Parser.eat_until_crlf_aux, countNl]
  | case3 line => simp [Parser.eat_until_crlf_aux, countNl]
  | case4 c rest line h ih =>
      simp [Parser.eat_until_crlf_aux, countNl_cons, ih]
  | case5 c rest line h1 h2 h3 ih =>
      simp only [Parser.eat_until_crlf_aux, countNl_cons, ih]
      by_cases hc : c = '\n' <;> simp [hc] <;> omega

/-- `eat_until` counts every consumed newline, the firing character
included: final line + newlines left = initial line + newlines in input. -/
theorem until_line_count (f : Char → Bool) : ∀ (input : Str) (line : Nat),
    (Parser.eat_until_aux f input line).2.2 + countNl (Parser.eat_until_aux f input line).2.1
      = line + countNl input := by
  intro input
  induction input with
  | nil => intro line; simp [Parser.eat_until_aux, countNl]
  | cons c rest ih =>
    intro line
    simp only [Parser.eat_until_aux, countNl_cons]
    by_cases hc : c = '\n'
    · subst hc
      by_cases hf : f '\n' <;> simp [hf, ih] <;> omega
    · by_cases hf : f c <;> simp [hf, hc, ih] <;> omega

/-- C3 amended: a `'\n'` consumed through `eat_char` or through the general
`eat_until` scanner increments the tracked line number, but the `'\n'` of a
CRLF terminator inside `eat_until_crlf` is consumed without incrementing it
(the counter grows only by the newlines kept in the returned field). -/
theorem claim_C3_theorem :
    (∀ (c : Char) (rest : Str) (line : Nat),
      Parser.eat_char ⟨c :: rest, line⟩
        = .ok (c, ⟨rest, if c = '\n' then line + 1 else line⟩)) ∧
    (∀ (f : Char → Bool) (input : Str) (line : Nat),
      (Parser.eat_until_aux f input line).2.2
          + countNl (Parser.eat_until_aux f input line).2.1
        = line + countNl input) ∧
    (∀ (input : Str) (line : Nat),
      (Parser.eat_until_crlf_aux input line).2.2
        = line + countNl (Parser.eat_until_crlf_aux input line).1) := by
  refine ⟨fun c rest line => rfl, until_line_count, crlf_line_count⟩

/-- C3 counterexample: parsing `"19 p\r\n"` fails with `InvalidStatus 19` at
reported line 1, although the parse consumed the whole input — the prompt
reader consumed through the CRLF, leaving nothing — and that input contains
one `'\n'`, so the claim's rule demands line `1 + 1 = 2`. -/
theorem claim_C3_counterexample :
    parse_response exampleBase "19 p\r\n".data = .error ⟨1, .invalidStatus 19⟩ ∧
    Parser.eat_until_crlf ⟨"p\r\n".data, 1⟩ = ("p".data, ⟨[], 1⟩) ∧
    countNl "19 p\r\n".data = 1 ∧ (1 : Nat) ≠ 1 + 1 := by decide

/-! ## C2: success body handling -/

theorem until_false_id : ∀ (input : Str) (line : Nat),
    Parser.eat_until_aux (fun _ => false) input line
      = (input, [], line + countNl input) := by
  intro input
  induction input with
  | nil => intro line; simp [Parser.eat_until_aux, countNl]
  | cons c rest ih =>
    intro line
    simp only [Parser.eat_until_aux, ih, countNl_cons]
    by_cases hc : c = '\n' <;> simp [hc] <;> omega

/-- C2: on a success reply everything after the status line is fed, together
with the base URL, to the gemtext parser, and a body-parse failure is
wrapped as `InvalidBody`; the concrete conjunct shows the base URL reaching
link resolution.  (In the source this only holds for the intended threaded
base URL — see the `Parser.success` and `parse_response` comments.) -/
theorem claim_C2_theorem :
    (∀ (base : Url) (tail : Str),
      parse_response base ("20 text/gemini\r\n".data ++ tail)
        = match parse_gemtext base tail with
          | .ok b => .ok (.success ⟨⟨"text".data, "gemini".data, none⟩, b⟩)
          | .error e => .error ⟨e.line, .invalidBody e⟩) ∧
    parse_response exampleBase "20 text/gemini\r\n=> faq.gmi FAQ".data
      = .ok (.success ⟨textGeminiMime,
          ⟨[.link ⟨"gemini".data, "example.org".data, ["docs".data, "faq.gmi".data]⟩
            (some "FAQ".data)]⟩⟩) ∧
    parse_response exampleBase "20 text/gemini\r\n=>".data
      = .error ⟨1, .invalidBody ⟨1, .linkLineMissingUrl⟩⟩ := by
  refine ⟨fun base tail => ?_, by decide, by decide⟩
  show (Parser.reply base ⟨'2' :: '0' :: ' ' :: 't' :: 'e' :: 'x' :: 't' :: '/' :: 'g' ::
    'e' :: 'm' :: 'i' :: 'n' :: 'i' :: '\r' :: '\n' :: tail, 1⟩).map (·.1) = _
  cases h : parse_gemtext base tail with
  | ok b =>
    simp [Parser.reply, Parser.eat_char, Parser.success, Parser.eat_digit, Parser.eat_sp,
      Parser.mimetype, Parser.eat_until, Parser.eat_until_aux, Parser.peek, Parser.make_err,
      charToDigit10, until_false_id, h, Except.instMonad, Except.bind, Except.map, Except.pure]
  | error e =>
    simp [Parser.reply, Parser.eat_char, Parser.success, Parser.eat_digit, Parser.eat_sp,
      Parser.mimetype, Parser.eat_until, Parser.eat_until_aux, Parser.peek, Parser.make_err,
      charToDigit10, until_false_id, h, Except.instMonad, Except.bind, Except.map, Except.pure]

/-! ## C10: CRLF field reading -/

theorem crlf_drop_after_cr (c : Char) (rest : Str) (line : Nat) (h : c ≠ '\n') :
    Parser.eat_until_crlf_aux ('\r' :: c :: rest) line
      = ('\r' :: (Parser.eat_until_crlf_aux rest line).1,
         (Parser.eat_until_crlf_aux rest line).2) := by
  rw [Parser.eat_until_crlf_aux.eq_4 line c rest (fun hc => h hc)]

theorem crlf_plain_char (c : Char) (rest : Str) (line : Nat) (h : c ≠ '\r') :
    Parser.eat_until_crlf_aux (c :: rest) line
      = (c :: (Parser.eat_until_crlf_aux rest (if c = '\n' then line + 1 else line)).1,
         (Parser.eat_until_crlf_aux rest (if c = '\n' then line + 1 else line)).2) := by
  rw [Parser.eat_until_crlf_aux.eq_5 line c rest
    (fun _ hc _ => h hc) (fun hc _ => h hc) (fun _ _ hc _ => h hc)]

/-- C10: in the "until CRLF" reader a field terminates only at a `'\r'`
immediately followed by `'\n'` or at end of input; a lone trailing `'\r'`
is kept; a `'\r'` not followed by `'\n'` is kept while the single character
after it is consumed and silently dropped; every other character is kept.
The concrete conjuncts show the behavior surfacing in an input prompt, a
redirect target and an optional failure message. -/
theorem claim_C10_theorem :
    (∀ (rest : Str) (line : Nat),
      Parser.eat_until_crlf_aux ('\r' :: '\n' :: rest) line = ([], rest, line)) ∧
    (∀ (line : Nat), Parser.eat_until_crlf_aux [] line = ([], [], line)) ∧
    (∀ (line : Nat), Parser.eat_until_crlf_aux ['\r'] line = (['\r'], [], line)) ∧
    (∀ (c : Char) (rest : Str) (line : Nat), c ≠ '\n' →
      Parser.eat_until_crlf_aux ('\r' :: c :: rest) line
        = ('\r' :: (Parser.eat_until_crlf_aux rest line).1,
           (Parser.eat_until_crlf_aux rest line).2)) ∧
    (∀ (c : Char) (rest : Str) (line : Nat), c ≠ '\r' →
      Parser.eat_until_crlf_aux (c :: rest) line
        = (c :: (Parser.eat_until_crlf_aux rest (if c = '\n' then line + 1 else line)).1,
           (Parser.eat_until_crlf_aux rest (if c = '\n' then line + 1 else line)).2)) ∧
    parse_response exampleBase "10 a\rXb\r\n".data = .ok (.mustPromptForInput "a\rb".data) ∧
    parse_response exampleBase "30 a\rXb\r\n".data = .ok (.temporaryRedirect "a\rb".data) ∧
    parse_response exampleBase "51 a\rXb\r\n".data
      = .ok (.resourceNotFound (some "a\rb".data)) :=
  ⟨fun _ _ => rfl, fun _ => rfl, fun _ => rfl, crlf_drop_after_cr, crlf_plain_char,
   by decide, by decide, by decide⟩

/-- C10 witness: the conditional clauses applied at `'X'` after a `'\r'`
(kept `'\r'`, dropped `'X'`) and at a plain `'a'`. -/
theorem claim_C10_witness :
    (('X' : Char) ≠ '\n' ∧
      Parser.eat_until_crlf_aux ('\r' :: 'X' :: "b\r\n".data) 1
        = ('\r' :: (Parser.eat_until_crlf_aux "b\r\n".data 1).1,
           (Parser.eat_until_crlf_aux "b\r\n".data 1).2)) ∧
    (('a' : Char) ≠ '\r' ∧
      Parser.eat_until_crlf_aux ('a' :: "\rXb".data) 3
        = ('a' :: (Parser.eat_until_crlf_aux "\rXb".data
              (if 'a' = '\n' then 3 + 1 else 3)).1,
           (Parser.eat_until_crlf_aux "\rXb".data (if 'a' = '\n' then 3 + 1 else 3)).2)) :=
  ⟨⟨by decide, claim_C10_theorem.2.2.2.1 'X' "b\r\n".data 1 (by decide)⟩,
   ⟨by decide, claim_C10_theorem.2.2.2.2.1 'a' "\rXb".data 3 (by decide)⟩⟩

/-! ## C5: link-line splitting, amended -/

theorem wsp_subset_rust (x : Char) (h : isWsp x = true) : isRustWhitespace x = true := by
  simp [isWsp] at h
  rcases h with h | h <;> subst h <;> decide

theorem takeWhile_not_wsp (u rest : Str) (c : Char) (hu : ∀ x ∈ u, isWsp x = false)
    (hc : isWsp c = true) :
    (u ++ c :: rest).takeWhile (fun x => !isWsp x) = u := by
  induction u with
  | nil => simp [List.takeWhile_cons, hc]
  | cons a as ih =>
    have ha := hu a (by simp)
    simp [List.takeWhile_cons, ha, ih (fun x hx => hu x (by simp [hx]))]

theorem splitnWsp2_app (u rest : Str) (c : Char) (hu : ∀ x ∈ u, isWsp x = false)
    (hc : isWsp c = true) : splitnWsp2 (u ++ c :: rest) = [u, rest] := by
  unfold splitnWsp2
  simp only [takeWhile_not_wsp u rest c hu hc, List.drop_left]

theorem splitnWsp2_nowsp (u : Str) (hu : ∀ x ∈ u, isWsp x = false) : splitnWsp2 u = [u] := by
  unfold splitnWsp2
  rw [show u.takeWhile (fun x => !isWsp x) = u from
    List.takeWhile_eq_self_iff.mpr (by intro x hx; simp [hu x hx])]
  simp [List.drop_length]

/-- C5 amended: a link line is split at the FIRST space-or-tab after the
URL token; the text after that single separator character, when non-empty,
is the description kept verbatim (no re-tokenization); with no separator,
or nothing after it, the description is absent. -/
theorem claim_C5_theorem :
    ∀ (base : Url) (n : Nat) (u rest : Str) (c : Char),
      u ≠ [] → (∀ x ∈ u, isRustWhitespace x = false) → isWsp c = true →
      (link_line base n ('=' :: '>' :: (u ++ c :: rest))
          = (make_url base n u).map
              (fun url => Line.link url (if rest.isEmpty then none else some rest))) ∧
      (link_line base n ('=' :: '>' :: u)
          = (make_url base n u).map (fun url => Line.link url none)) := by
  intro base n u rest c hne hu hc
  have hwsp : ∀ x ∈ u, isWsp x = false := by
    intro x hx
    cases hw : isWsp x
    · rfl
    · have := wsp_subset_rust x hw
      rw [hu x hx] at this
      exact absurd this (by simp)
  obtain ⟨a, as, rfl⟩ : ∃ a as, u = a :: as := by
    cases u with
    | nil => exact absurd rfl hne
    | cons a as => exact ⟨a, as, rfl⟩
  have ha : isRustWhitespace a = false := hu a (by simp)
  have hsplit := splitnWsp2_app (a :: as) rest c hwsp hc
  rw [List.cons_append] at hsplit
  constructor
  · show link_line base n ('=' :: '>' :: ((a :: as) ++ c :: rest)) = _
    unfold link_line
    simp only [List.drop_succ_cons, List.drop_zero, List.cons_append,
      List.dropWhile_cons, ha, Bool.false_eq_true, if_false, hsplit]
    by_cases hr : rest.isEmpty
    · rw [List.isEmpty_iff] at hr
      subst hr
      simp
    · simp only [List.filter]
      rw [show rest.isEmpty = false from by revert hr; cases rest.isEmpty <;> simp]
      simp [joinSpace]
  · show link_line base n ('=' :: '>' :: (a :: as)) = _
    unfold link_line
    simp only [List.drop_succ_cons, List.drop_zero,
      List.dropWhile_cons, ha, Bool.false_eq_true, if_false,
      splitnWsp2_nowsp (a :: as) hwsp]
    simp

/-- C5 witness: the amended splitting rule applied to the line
`"=> url  desc"` — URL token `"url"`, separator the first space, verbatim
description `" desc"`. -/
theorem claim_C5_witness :
    ("url".data : Str) ≠ [] ∧
    (∀ x ∈ ("url".data : Str), isRustWhitespace x = false) ∧ isWsp ' ' = true ∧
    link_line exampleBase 1 ('=' :: '>' :: ("url".data ++ ' ' :: " desc".data))
      = (make_url exampleBase 1 "url".data).map
          (fun url => Line.link url
            (if (" desc".data : Str).isEmpty then none else some " desc".data)) :=
  ⟨by decide, by decide, by decide,
   (claim_C5_theorem exampleBase 1 "url".data " desc".data ' '
      (by decide) (by decide) (by decide)).1⟩

/-! ## C8: heading depth -/

theorem takeWhile_hash_replicate (n : Nat) (rest : Str) (h : rest.head? ≠ some '#') :
    (List.replicate n '#' ++ rest).takeWhile (· = '#') = List.replicate n '#' := by
  induction n with
  | zero =>
    cases rest with
    | nil => simp
    | cons c cs =>
      have hc : c ≠ '#' := by
        intro hc
        exact h (by simp [hc])
      simp [List.takeWhile_cons, hc]
  | succ m ih => simp [List.replicate_succ, List.takeWhile_cons, ih]

/-- A heading line of `n ≥ 1` leading `'#'` characters parses to a heading
whose stored depth is `n % 256` (the `as u8` cast) and whose text is the
trimmed remainder. -/
theorem gemtext_line_heading (base : Url) (lineNum : Nat) (mode : ParserMode)
    (n : Nat) (rest : Str) (hn : 0 < n) (h : rest.head? ≠ some '#') :
    gemtext_line base lineNum mode (List.replicate n '#' ++ rest)
      = .ok (.heading (trim rest) (n % 256), mode) := by
  obtain ⟨m, rfl⟩ : ∃ m, n = m + 1 := ⟨n - 1, by omega⟩
  rw [List.replicate_succ, List.cons_append]
  unfold gemtext_line
  rw [show hasPrefixChars "=>".data ('#' :: (List.replicate m '#' ++ rest)) = false from by
    show hasPrefixChars ['=', '>'] _ = false
    simp [hasPrefixChars]]
  rw [show hasPrefixChars "```".data ('#' :: (List.replicate m '#' ++ rest)) = false from by
    show hasPrefixChars ['`', '`', '`'] _ = false
    simp [hasPrefixChars]]
  rw [show hasPrefixChars "#".data ('#' :: (List.replicate m '#' ++ rest)) = true from by
    show hasPrefixChars ['#'] _ = true
    simp [hasPrefixChars]]
  simp only [Bool.false_eq_true, if_false, if_true]
  unfold heading
  rw [show ('#' :: (List.replicate m '#' ++ rest)) = (List.replicate (m + 1) '#' ++ rest) from by
    rw [List.replicate_succ, List.cons_append]]
  rw [takeWhile_hash_replicate (m + 1) rest h, List.length_replicate]
  have hdrop : (List.replicate (m + 1) '#' ++ rest).drop (m + 1) = rest :=
    List.drop_left' (List.length_replicate ..)
  simp only [hdrop]

/-- C8 amended: for a line of `n ≥ 1` leading `'#'` characters the stored
depth is the count TRUNCATED to a byte (`n % 256`, the `depth as u8` cast) —
it equals the count only for `n < 256` — and the text is the remainder
trimmed of surrounding whitespace. -/
theorem claim_C8_theorem :
    ∀ (base : Url) (lineNum : Nat) (mode : ParserMode) (n : Nat) (rest : Str),
      0 < n → rest.head? ≠ some '#' →
      gemtext_line base lineNum mode (List.replicate n '#' ++ rest)
        = .ok (.heading (trim rest) (n % 256), mode) :=
  fun base lineNum mode n rest hn h => gemtext_line_heading base lineNum mode n rest hn h

/-- C8 witness: a depth-6 heading with trimmed text. -/
theorem claim_C8_witness :
    (0 < 6) ∧ ((" Title ".data : Str).head? ≠ some '#') ∧
    gemtext_line exampleBase 1 .normal (List.replicate 6 '#' ++ " Title ".data)
      = .ok (.heading (trim " Title ".data) (6 % 256), .normal) :=
  ⟨by decide, by decide,
   claim_C8_theorem exampleBase 1 .normal 6 " Title ".data (by decide) (by decide)⟩

set_option maxRecDepth 4000 in
/-- C8 counterexample: a line of 256 `'#'` characters yields a heading of
stored depth 0, not 256 — the count is not unbounded, the `as u8` cast
truncates it. -/
theorem claim_C8_counterexample :
    parse_gemtext exampleBase (List.replicate 256 '#' ++ " t".data)
      = .ok ⟨[.heading "t".data 0]⟩ ∧ (0 : Nat) ≠ 256 := by decide

/-! ## C6: URL resolution -/

theorem url_parse_scheme (s : Str) (u : Url) (h : Url.parse s = some u) : u.scheme ≠ [] := by
  simp only [Url.parse] at h
  split at h
  · rename_i hc
    simp only [Bool.and_eq_true, Bool.not_eq_true'] at hc
    injection h with h'
    subst h'
    intro hnil
    rw [show s.takeWhile isSchemeChar = [] from hnil] at hc
    simp at hc
  · cases h

theorem url_join_scheme (base : Url) (s : Str) (u : Url) (hb : base.scheme ≠ [])
    (h : Url.join base s = some u) : u.scheme ≠ [] := by
  unfold Url.join at h
  split at h
  · exact url_parse_scheme s u h
  · split at h
    · injection h with h'
      subst h'
      exact hb
    · split at h
      · injection h with h'
        subst h'
        exact hb
      · injection h with h'
        subst h'
        exact hb

theorem make_url_scheme (base : Url) (n : Nat) (s : Str) (u : Url) (hb : base.scheme ≠ [])
    (h : make_url base n s = .ok u) : u.scheme ≠ [] := by
  unfold make_url at h
  cases hp : Url.parse s with
  | some v =>
    rw [hp] at h
    injection h with h'
    exact h' ▸ url_parse_scheme s v hp
  | none =>
    rw [hp] at h
    cases hj : Url.join base s with
    | some v =>
      rw [hj] at h
      injection h with h'
      exact h' ▸ url_join_scheme base s v hb hj
    | none => rw [hj] at h; cases h

theorem link_line_link_scheme (base : Url) (n : Nat) (cur : Str) (u : Url) (d : Option Str)
    (hb : base.scheme ≠ []) (h : link_line base n cur = .ok (.link u d)) : u.scheme ≠ [] := by
  simp only [link_line] at h
  rcases hs : (splitnWsp2 ((cur.drop 2).dropWhile isRustWhitespace)).filter
      (fun s => !s.isEmpty) with _ | ⟨url, rest⟩
  · rw [hs] at h
    cases h
  · rw [hs] at h
    cases rest with
    | nil =>
      dsimp only at h
      cases hmk : make_url base n url with
      | error e => rw [hmk] at h; cases h
      | ok u' =>
        rw [hmk] at h
        simp only [Except.map] at h
        injection h with h'
        injection h' with h1 h2
        exact h1 ▸ make_url_scheme base n url u' hb hmk
    | cons p ps =>
      dsimp only at h
      cases hmk : make_url base n url with
      | error e => rw [hmk] at h; cases h
      | ok u' =>
        rw [hmk] at h
        simp only [Except.map] at h
        injection h with h'
        injection h' with h1 h2
        exact h1 ▸ make_url_scheme base n url u' hb hmk

theorem gemtext_line_link_scheme (base : Url) (n : Nat) (mode : ParserMode) (cur : Str)
    (u : Url) (d : Option Str) (m' : ParserMode) (hb : base.scheme ≠ [])
    (h : gemtext_line base n mode cur = .ok (.link u d, m')) : u.scheme ≠ [] := by
  unfold gemtext_line at h
  split at h
  · cases hl : link_line base n cur with
    | error e => rw [hl] at h; cases h
    | ok l =>
      rw [hl] at h
      simp only [Except.map] at h
      injection h with h'
      have h1 : l = Line.link u d := congrArg Prod.fst h'
      exact link_line_link_scheme base n cur u d hb (h1 ▸ hl)
  · split at h
    · cases mode <;> simp [preformat_toggle] at h
    · split at h
      · simp only [heading] at h
        injection h with h'
        have := congrArg Prod.fst h'
        simp at this
      · split at h
        · simp only [list_item] at h
          injection h with h'
          have := congrArg Prod.fst h'
          simp at this
        · split at h
          · simp only [quote_line] at h
            injection h with h'
            have := congrArg Prod.fst h'
            simp at this
          · injection h with h'
            have := congrArg Prod.fst h'
            simp at this

theorem gemtext_lines_link_scheme (base : Url) (hb : base.scheme ≠ []) :
    ∀ (ls : List Str) (n : Nat) (mode : ParserMode) (lns : List Line),
      gemtext_lines base ls n mode = .ok lns →
      ∀ (u : Url) (d : Option Str), Line.link u d ∈ lns → u.scheme ≠ [] := by
  intro ls
  induction ls with
  | nil =>
    intro n mode lns h u d hm
    simp only [gemtext_lines] at h
    injection h with h'
    subst h'
    simp at hm
  | cons l rest ih =>
    intro n mode lns h u d hm
    unfold gemtext_lines at h
    cases hg : gemtext_line base (n + 1) mode l with
    | error e => rw [hg] at h; cases h
    | ok p =>
      obtain ⟨p1, p2⟩ := p
      rw [hg] at h
      dsimp only at h
      cases hr : gemtext_lines base rest (n + 1) p2 with
      | error e => rw [hr] at h; cases h
      | ok lns' =>
        rw [hr] at h
        simp only [Except.map] at h
        injection h with h'
        subst h'
        rcases List.mem_cons.mp hm with hm | hm
        · exact gemtext_line_link_scheme base (n + 1) mode l u d p2 hb (by rw [hg, ← hm])
        · exact ih (n + 1) p2 lns' hr u d hm

theorem link_line_all_wsp (base : Url) (n : Nat) (w : Str)
    (hw : ∀ x ∈ w, isRustWhitespace x = true) :
    link_line base n ('=' :: '>' :: w) = .error ⟨n, .linkLineMissingUrl⟩ := by
  simp only [link_line, List.drop_succ_cons, List.drop_zero]
  rw [show w.dropWhile isRustWhitespace = [] from List.dropWhile_eq_nil_iff.mpr hw]
  rfl

/-- C6: `make_url` tries an absolute parse first, then a join against the
base document URL, then fails with `InvalidUrl`; a link line whose remainder
is only whitespace fails with `LinkLineMissingUrl`; and every `Link` URL in
a successfully parsed document is absolute (carries a scheme) whenever the
base URL is. -/
theorem claim_C6_theorem :
    (∀ (base : Url) (n : Nat) (s : Str) (u : Url),
        (Url.parse s = some u → make_url base n s = .ok u) ∧
        (Url.parse s = none → Url.join base s = some u → make_url base n s = .ok u) ∧
        (Url.parse s = none → Url.join base s = none →
          make_url base n s = .error ⟨n, .invalidUrl⟩)) ∧
    (∀ (base : Url) (n : Nat) (w : Str), (∀ x ∈ w, isRustWhitespace x = true) →
        link_line base n ('=' :: '>' :: w) = .error ⟨n, .linkLineMissingUrl⟩) ∧
    (∀ (base : Url) (body : Str) (out : GemTextBody), base.scheme ≠ [] →
        parse_gemtext base body = .ok out →
        ∀ (u : Url) (d : Option Str), Line.link u d ∈ out.lines → u.scheme ≠ []) := by
  refine ⟨fun base n s u => ⟨fun hp => ?_, fun hp hj => ?_, fun hp hj => ?_⟩,
    link_line_all_wsp, fun base body out hb hp u d hm => ?_⟩
  · unfold make_url
    rw [hp]
  · unfold make_url
    rw [hp, hj]
  · unfold make_url
    rw [hp, hj]
  · unfold parse_gemtext at hp
    cases hg : gemtext_lines base (rustLines body) 0 .normal with
    | error e => rw [hg] at hp; cases hp
    | ok lns =>
      rw [hg] at hp
      simp only [Except.map] at hp
      injection hp with hp'
      have hout : out.lines = lns := by rw [← hp']
      exact gemtext_lines_link_scheme base hb (rustLines body) 0 .normal lns hg u d (hout ▸ hm)

/-- C6 witness: `"1://x"` neither parses absolutely nor joins, giving
`InvalidUrl`; and the resolved link of `"=> faq.gmi Read the FAQ"` against
`gemini://example.org/docs/` carries the scheme `gemini`. -/
theorem claim_C6_witness :
    (Url.parse "1://x".data = none ∧ Url.join exampleBase "1://x".data = none ∧
      make_url exampleBase 7 "1://x".data = .error ⟨7, .invalidUrl⟩) ∧
    (exampleBase.scheme ≠ [] ∧
      parse_gemtext exampleBase "=> faq.gmi Read the FAQ".data
        = .ok ⟨[.link ⟨"gemini".data, "example.org".data, ["docs".data, "faq.gmi".data]⟩
            (some "Read the FAQ".data)]⟩ ∧
      (⟨"gemini".data, "example.org".data, ["docs".data, "faq.gmi".data]⟩ : Url).scheme ≠ []) :=
  ⟨⟨by decide, by decide,
      (claim_C6_theorem.1 exampleBase 7 "1://x".data exampleBase).2.2 (by decide) (by decide)⟩,
   ⟨by decide, by decide,
      claim_C6_theorem.2.2 exampleBase "=> faq.gmi Read the FAQ".data
        ⟨[.link ⟨"gemini".data, "example.org".data, ["docs".data, "faq.gmi".data]⟩
            (some "Read the FAQ".data)]⟩ (by decide) (by decide)
        ⟨"gemini".data, "example.org".data, ["docs".data, "faq.gmi".data]⟩
        (some "Read the FAQ".data) (by decide)⟩⟩

/-! ## C9: TLS pumping call structure -/

/-- C9: `complete_prior_io` performs one ciphertext round when the session
is handshaking and another when it (then) wants to write; the read pump runs
only while the session wants to read and stops as soon as a round's
byte-read count is zero; `prepare_read` is `complete_prior_io` first, then
the pump, its trace the concatenation. -/
theorem claim_C9_theorem :
    ∀ (σ ε : Type) (I : SessionIface σ ε),
      (∀ (s : σ), I.is_handshaking s = false → I.wants_write s = false →
        complete_prior_io I s = .ok (s, [])) ∧
      (∀ (s s' : σ) (rd wr : Nat), I.is_handshaking s = false → I.wants_write s = true →
        I.complete_io s = .ok (rd, wr, s') →
        complete_prior_io I s = .ok (s', [⟨rd, wr⟩])) ∧
      (∀ (s s' : σ) (rd wr : Nat), I.is_handshaking s = true →
        I.complete_io s = .ok (rd, wr, s') → I.wants_write s' = false →
        complete_prior_io I s = .ok (s', [⟨rd, wr⟩])) ∧
      (∀ (s s' s'' : σ) (rd wr rd2 wr2 : Nat), I.is_handshaking s = true →
        I.complete_io s = .ok (rd, wr, s') → I.wants_write s' = true →
        I.complete_io s' = .ok (rd2, wr2, s'') →
        complete_prior_io I s = .ok (s'', [⟨rd, wr⟩, ⟨rd2, wr2⟩])) ∧
      (∀ (fuel : Nat) (s : σ), I.wants_read s = false →
        read_pump I (fuel + 1) s = some (.ok (s, []))) ∧
      (∀ (fuel : Nat) (s s' : σ) (wr : Nat), I.wants_read s = true →
        I.complete_io s = .ok (0, wr, s') →
        read_pump I (fuel + 1) s = some (.ok (s', [⟨0, wr⟩]))) ∧
      (∀ (fuel : Nat) (s s' : σ) (rd wr : Nat), I.wants_read s = true →
        I.complete_io s = .ok (rd, wr, s') → rd ≠ 0 →
        read_pump I (fuel + 1) s
          = (read_pump I fuel s').map (·.map (fun r => (r.1, ⟨rd, wr⟩ :: r.2)))) ∧
      (∀ (fuel : Nat) (s s2 : σ) (t : List TlsRound),
        prepare_read I fuel s = some (.ok (s2, t)) →
        ∃ s1 t1 t2, complete_prior_io I s = .ok (s1, t1) ∧
          read_pump I fuel s1 = some (.ok (s2, t2)) ∧ t = t1 ++ t2) := by
  intro σ ε I
  refine ⟨fun s h1 h2 => ?_, fun s s' rd wr h1 h2 h3 => ?_, fun s s' rd wr h1 h2 h3 => ?_,
    fun s s' s'' rd wr rd2 wr2 h1 h2 h3 h4 => ?_, fun fuel s h1 => ?_,
    fun fuel s s' wr h1 h2 => ?_, fun fuel s s' rd wr h1 h2 h3 => ?_,
    fun fuel s s2 t h => ?_⟩
  · simp [complete_prior_io, h1, h2, Except.instMonad, Except.bind, Except.pure]
  · simp [complete_prior_io, h1, h2, h3, Except.instMonad, Except.bind, Except.pure]
  · simp [complete_prior_io, h1, h2, h3, Except.instMonad, Except.bind, Except.pure]
  · simp [complete_prior_io, h1, h2, h3, h4, Except.instMonad, Except.bind, Except.pure]
  · simp [read_pump, h1]
  · simp [read_pump, h1, h2]
  · simp [read_pump, h1, h2, h3]
  · unfold prepare_read at h
    cases hc : complete_prior_io I s with
    | error e => rw [hc] at h; cases h
    | ok p =>
      obtain ⟨s1, t1⟩ := p
      rw [hc] at h
      dsimp only at h
      cases hr : read_pump I fuel s1 with
      | none => rw [hr] at h; cases h
      | some r =>
        rw [hr] at h
        cases r with
        | error e => simp [Option.map, Except.map] at h
        | ok q =>
          obtain ⟨sq, tq⟩ := q
          simp [Option.map, Except.map] at h
          obtain ⟨hq1, hq2⟩ := h
          refine ⟨s1, t1, tq, rfl, ?_, hq2.symm⟩
          rw [hr, hq1]

/-- A small concrete session machine used to witness every clause of the C9
theorem: state 10 and 8 are handshaking, state 7 wants to write, every
non-zero state wants to read, and a round at state `s` reports
`(s - 1, s)` bytes moving to state `s - 1`. -/
def toyIface : SessionIface Nat Unit where
  is_handshaking s := s == 10 || s == 8
  wants_write s := s == 7
  wants_read s := s != 0
  complete_io s := .ok (s - 1, s, s - 1)

/-- C9 witness: each clause applied on the toy session machine. -/
theorem claim_C9_witness :
    (toyIface.is_handshaking 1 = false ∧ toyIface.wants_write 1 = false ∧
      complete_prior_io toyIface 1 = .ok (1, [])) ∧
    (toyIface.is_handshaking 7 = false ∧ toyIface.wants_write 7 = true ∧
      toyIface.complete_io 7 = .ok (6, 7, 6) ∧
      complete_prior_io toyIface 7 = .ok (6, [⟨6, 7⟩])) ∧
    (toyIface.is_handshaking 10 = true ∧ toyIface.complete_io 10 = .ok (9, 10, 9) ∧
      toyIface.wants_write 9 = false ∧
      complete_prior_io toyIface 10 = .ok (9, [⟨9, 10⟩])) ∧
    (toyIface.is_handshaking 8 = true ∧ toyIface.complete_io 8 = .ok (7, 8, 7) ∧
      toyIface.wants_write 7 = true ∧ toyIface.complete_io 7 = .ok (6, 7, 6) ∧
      complete_prior_io toyIface 8 = .ok (6, [⟨7, 8⟩, ⟨6, 7⟩])) ∧
    (toyIface.wants_read 0 = false ∧ read_pump toyIface 1 0 = some (.ok (0, []))) ∧
    (toyIface.wants_read 1 = true ∧ toyIface.complete_io 1 = .ok (0, 1, 0) ∧
      read_pump toyIface 1 1 = some (.ok (0, [⟨0, 1⟩]))) ∧
    (toyIface.wants_read 2 = true ∧ toyIface.complete_io 2 = .ok (1, 2, 1) ∧ (1 : Nat) ≠ 0 ∧
      read_pump toyIface 2 2
        = (read_pump toyIface 1 1).map (·.map (fun r => (r.1, ⟨1, 2⟩ :: r.2)))) ∧
    (prepare_read toyIface 2 1 = some (.ok (0, [⟨0, 1⟩])) ∧
      ∃ s1 t1 t2, complete_prior_io toyIface 1 = .ok (s1, t1) ∧
        read_pump toyIface 2 s1 = some (.ok (0, t2)) ∧ ([⟨0, 1⟩] : List TlsRound) = t1 ++ t2) :=
  ⟨⟨rfl, rfl, (claim_C9_theorem Nat Unit toyIface).1 1 rfl rfl⟩,
   ⟨rfl, rfl, rfl, (claim_C9_theorem Nat Unit toyIface).2.1 7 6 6 7 rfl rfl rfl⟩,
   ⟨rfl, rfl, rfl, (claim_C9_theorem Nat Unit toyIface).2.2.1 10 9 9 10 rfl rfl rfl⟩,
   ⟨rfl, rfl, rfl, rfl,
     (claim_C9_theorem Nat Unit toyIface).2.2.2.1 8 7 6 7 8 6 7 rfl rfl rfl rfl⟩,
   ⟨rfl, (claim_C9_theorem Nat Unit toyIface).2.2.2.2.1 0 0 rfl⟩,
   ⟨rfl, rfl, (claim_C9_theorem Nat Unit toyIface).2.2.2.2.2.1 0 1 0 1 rfl rfl⟩,
   ⟨rfl, rfl, by decide,
     (claim_C9_theorem Nat Unit toyIface).2.2.2.2.2.2.1 1 2 1 1 2 rfl rfl (by decide)⟩,
   ⟨by rfl, (claim_C9_theorem Nat Unit toyIface).2.2.2.2.2.2.2 2 1 0 [⟨0, 1⟩] (by rfl)⟩⟩

end Gemini
